import Mathlib

/-!
# Verification of the uniplot plot-rendering core

Shallow embedding of `src/uniplot/uniplot.py` (the orchestration layer:
`plot`, `plot_gen`, `_process_action`, `_erase_previous_lines`,
`_generate_plot_str_list`, `plot_to_string`, `histogram`) together with
spec-modelled definitions for the collaborating modules that are not part
of the source tree (`MultiSeries` construction, `Options` and its view
mutations, bound derivation, and the body/header generation of the
`sections` module).  Numeric values are modelled as `ℚ`; a missing or
non-finite value (`None`, `NaN`, `inf`) is modelled as `none : Option ℚ`.
-/

namespace Uniplot

/-- Structural plot errors, per the spec's error taxonomy (§7). -/
inductive PlotError where
  | shapeMismatch
  | noPositiveDataForLogScale
  deriving DecidableEq, Repr

/-- Raw caller input for one coordinate: either a single series (a flat
list) or a collection of series (a list of lists).  An element is `none`
when the value is missing or non-finite. -/
inductive RawInput where
  | single (l : List (Option ℚ))
  | multi (ls : List (List (Option ℚ)))
  deriving DecidableEq

/-- Canonicalize raw input into a list of series (spec §4.1: a scalar/1-D
input yields exactly one series; nested input yields one per inner list). -/
def toSeriesList : RawInput → List (List (Option ℚ))
  | .single l => [l]
  | .multi ls => ls

/-- Modelled from the spec: §4.1 — when `xs` is omitted, x defaults to the
0..N-1 index positions, computed independently per series. -/
def defaultIndices (l : List (Option ℚ)) : List (Option ℚ) :=
  (List.range l.length).map (fun i => some (i : ℚ))

/-- Modelled from the spec: §4.1 — a single x series given alongside a
multi-series y is paired with every y series (each y series corresponds to
the one x series). -/
def broadcastXs : RawInput → Nat → List (List (Option ℚ))
  | .single l, n => List.replicate n l
  | .multi ls, _ => ls

/-- `true` exactly when x and y are both multi-series and their series
counts differ (first `ShapeMismatch` condition of spec §4.1). -/
def bothMultiCountMismatch : RawInput → RawInput → Bool
  | .multi xls, .multi yls => xls.length != yls.length
  | _, _ => false

/-- `true` when some x series and its corresponding (same-position) y
series have different lengths (second `ShapeMismatch` condition). -/
def anyLengthMismatch : List (List (Option ℚ)) → List (List (Option ℚ)) → Bool
  | x :: xs, y :: ys => (x.length != y.length) || anyLengthMismatch xs ys
  | _, _ => false

/-- The canonical series model: one x series and one y series per plotted
series (spec §3). -/
structure MultiSeries where
  xs : List (List (Option ℚ))
  ys : List (List (Option ℚ))
  deriving DecidableEq

/-- Modelled from the spec: §4.1 Canonical Series Model — the
`MultiSeries` constructor itself is not part of the source tree (only its
callers in `uniplot.py` are).  If x is omitted it defaults to per-series
indices; otherwise construction fails with `ShapeMismatch` when x and y
are both multi-series with differing series counts, or when a
corresponding x/y series pair has different lengths. -/
def mkMultiSeries (xs : Option RawInput) (ys : RawInput) :
    Except PlotError MultiSeries :=
  let yss := toSeriesList ys
  match xs with
  | none => .ok ⟨yss.map defaultIndices, yss⟩
  | some xsIn =>
    if bothMultiCountMismatch xsIn ys then .error .shapeMismatch
    else
      let xss := broadcastXs xsIn yss.length
      if anyLengthMismatch xss yss then .error .shapeMismatch
      else .ok ⟨xss, yss⟩

/-- Modelled from the spec: §3/§4.2 ViewConfig and §6 recognized options —
the Python `Options` class is not in the source tree.  Holds the current
axis bounds, the bounds captured at construction (used by `reset_view`),
scale flags, grid dimensions and display flags. -/
structure Options where
  width : Nat
  height : Nat
  interactive : Bool
  lines : Bool
  x_as_log : Bool
  y_as_log : Bool
  title : Option String
  legend_labels : Option (List String)
  x_min : ℚ
  x_max : ℚ
  y_min : ℚ
  y_max : ℚ
  orig_x_min : ℚ
  orig_x_max : ℚ
  orig_y_min : ℚ
  orig_y_max : ℚ
  deriving DecidableEq

/-- User-supplied options before validation/bound derivation (the kwargs
of the Python entry points): bounds optional, defaults resolved by
`validate_and_transform_options`. -/
structure UserOptions where
  width : Nat
  height : Nat
  interactive : Bool
  lines : Bool
  x_as_log : Bool
  y_as_log : Bool
  title : Option String
  legend_labels : Option (List String)
  x_min : Option ℚ
  x_max : Option ℚ
  y_min : Option ℚ
  y_max : Option ℚ
  deriving DecidableEq

/-- Modelled from the spec: §4.2 — pan step fraction of the current span. -/
def panStep : ℚ := 1/5

/-- Modelled from the spec: §4.2 — zoom factor (> 1); zooming in divides
the span by this factor around the center, zooming out multiplies it. -/
def zoomFactor : ℚ := 3/2

/-- Modelled from the spec: §4.2 pan left — shift both x bounds by the pan
step times the span, preserving the span. -/
def shift_view_left (o : Options) : Options :=
  let step := panStep * (o.x_max - o.x_min)
  { o with x_min := o.x_min - step, x_max := o.x_max - step }

/-- Modelled from the spec: §4.2 pan right. -/
def shift_view_right (o : Options) : Options :=
  let step := panStep * (o.x_max - o.x_min)
  { o with x_min := o.x_min + step, x_max := o.x_max + step }

/-- Modelled from the spec: §4.2 pan down. -/
def shift_view_down (o : Options) : Options :=
  let step := panStep * (o.y_max - o.y_min)
  { o with y_min := o.y_min - step, y_max := o.y_max - step }

/-- Modelled from the spec: §4.2 pan up. -/
def shift_view_up (o : Options) : Options :=
  let step := panStep * (o.y_max - o.y_min)
  { o with y_min := o.y_min + step, y_max := o.y_max + step }

/-- Modelled from the spec: §4.2 zoom in — shrink both spans around the
center by `zoomFactor`. -/
def zoom_in (o : Options) : Options :=
  let cx := (o.x_min + o.x_max) / 2
  let cy := (o.y_min + o.y_max) / 2
  let hx := (o.x_max - o.x_min) / (2 * zoomFactor)
  let hy := (o.y_max - o.y_min) / (2 * zoomFactor)
  { o with x_min := cx - hx, x_max := cx + hx, y_min := cy - hy, y_max := cy + hy }

/-- Modelled from the spec: §4.2 zoom out — grow both spans around the
center by `zoomFactor`. -/
def zoom_out (o : Options) : Options :=
  let cx := (o.x_min + o.x_max) / 2
  let cy := (o.y_min + o.y_max) / 2
  let hx := (o.x_max - o.x_min) * zoomFactor / 2
  let hy := (o.y_max - o.y_min) * zoomFactor / 2
  { o with x_min := cx - hx, x_max := cx + hx, y_min := cy - hy, y_max := cy + hy }

/-- Modelled from the spec: §4.2 reset — restores the bounds captured at
construction. -/
def reset_view (o : Options) : Options :=
  { o with x_min := o.orig_x_min, x_max := o.orig_x_max,
           y_min := o.orig_y_min, y_max := o.orig_y_max }

/-- The escape key (`"\x1b"` in the source). -/
def escKey : Char := Char.ofNat 27

/-- Embedding of `_process_action` (uniplot.py lines 65-86) minus the
instruction-line print and the key read themselves, which are events of
the interactive trace below: given the options and the key returned by
`getch()`, returns the `interactive` continuation flag and the mutated
options.  The source lowercases the key before dispatching. -/
def process_action (o : Options) (key : Char) : Bool × Options :=
  let key_pressed := key.toLower
  if key_pressed = 'h' then (true, shift_view_left o)
  else if key_pressed = 'l' then (true, shift_view_right o)
  else if key_pressed = 'j' then (true, shift_view_down o)
  else if key_pressed = 'k' then (true, shift_view_up o)
  else if key_pressed = 'u' then (true, zoom_in o)
  else if key_pressed = 'n' then (true, zoom_out o)
  else if key_pressed = 'r' then (true, reset_view o)
  else if key_pressed = 'q' ∨ key_pressed = escKey then (false, o)
  else (true, o)

/-- Embedding of `_erase_previous_lines` (uniplot.py lines 89-94): the
number of lines erased before a redraw is `height + 4`, plus one per
legend label when labels are given. -/
def nr_lines_to_erase (o : Options) : Nat :=
  let n := o.height + 4
  match o.legend_labels with
  | none => n
  | some ls => n + ls.length

/-- Modelled from the spec: §3 — a value is valid when it is present and
finite (`some`), and, under log scale, strictly positive. -/
def validValue (log : Bool) : Option ℚ → Option ℚ
  | none => none
  | some v => if log ∧ v ≤ 0 then none else some v

/-- A point is valid when both coordinates are valid under the respective
scale flags (spec §3/§4.3). -/
def validXY (xlog ylog : Bool) (x? y? : Option ℚ) : Option (ℚ × ℚ) :=
  match validValue xlog x?, validValue ylog y? with
  | some x, some y => some (x, y)
  | _, _ => none

/-- The valid points of one series, in order: invalid points are dropped
from the series itself, independently of any other series (spec §3). -/
def valid_points (xlog ylog : Bool) (xs ys : List (Option ℚ)) : List (ℚ × ℚ) :=
  (xs.zip ys).filterMap (fun p => validXY xlog ylog p.1 p.2)

/-- All valid points across all series (the aggregate the bound
derivation uses, spec §3 MultiSeries statistics). -/
def allValidPoints (xlog ylog : Bool) (ms : MultiSeries) : List (ℚ × ℚ) :=
  ((ms.xs.zip ms.ys).map (fun s => valid_points xlog ylog s.1 s.2)).flatten

/-- Minimum of a list of rationals, `none` on the empty list. -/
def listMin : List ℚ → Option ℚ
  | [] => none
  | x :: xs =>
    match listMin xs with
    | none => some x
    | some m => some (min x m)

/-- Maximum of a list of rationals, `none` on the empty list. -/
def listMax : List ℚ → Option ℚ
  | [] => none
  | x :: xs =>
    match listMax xs with
    | none => some x
    | some m => some (max x m)

/-- Modelled from the spec: §3/§7 `DegenerateRange` — when the derived
bounds coincide, synthesize a non-zero span (staying positive under log
scale). -/
def synthSpan (log : Bool) (m M : ℚ) : ℚ × ℚ :=
  if m = M then
    if log ∧ 0 < m then (m / 2, 2 * M) else (m - 1, M + 1)
  else (m, M)

/-- Modelled from the spec: §4.2 `derive_bounds`, per axis — use the
explicit user bound if given, else the min/max over the axis coordinates
of the valid points; if log scale is requested and no such coordinate
exists (and no user bound makes up for it), fail with
`NoPositiveDataForLogScale`; with no data on a linear axis fall back to
the default range [0,1] (spec §3 invariant). -/
def derive_axis_bounds (log : Bool) (uMin uMax : Option ℚ) (vals : List ℚ) :
    Except PlotError (ℚ × ℚ) :=
  let m? : Option ℚ := match uMin with | some m => some m | none => listMin vals
  let M? : Option ℚ := match uMax with | some M => some M | none => listMax vals
  match m?, M? with
  | some m, some M => .ok (synthSpan log m M)
  | _, _ => if log then .error .noPositiveDataForLogScale else .ok (0, 1)

/-- Modelled from the spec: §4.2 — `validate_and_transform_options` (the
`param_initializer` module is not in the source tree): derives the view
bounds from the series statistics and the user overrides, captures them as
the construction-time bounds for `reset_view`, and copies the remaining
user options through. -/
def validate_and_transform_options (ms : MultiSeries) (uo : UserOptions) :
    Except PlotError Options :=
  match derive_axis_bounds uo.x_as_log uo.x_min uo.x_max
          ((allValidPoints uo.x_as_log uo.y_as_log ms).map Prod.fst),
        derive_axis_bounds uo.y_as_log uo.y_min uo.y_max
          ((allValidPoints uo.x_as_log uo.y_as_log ms).map Prod.snd) with
  | .error e, _ => .error e
  | .ok _, .error e => .error e
  | .ok xb, .ok yb =>
    .ok ⟨uo.width, uo.height, uo.interactive, uo.lines, uo.x_as_log, uo.y_as_log,
         uo.title, uo.legend_labels, xb.1, xb.2, yb.1, yb.2, xb.1, xb.2, yb.1, yb.2⟩

/-- Round a rational to the nearest integer and clamp into `[0, n-1]`. -/
def roundClampNat (q : ℚ) (n : Nat) : Nat :=
  min (max ⌊q + 1/2⌋ 0).toNat (n - 1)

/-- Modelled from the spec: §4.3 Coordinate Mapper — apply the axis
transform (identity for linear scale; the real code uses floating-point
log10 under log scale, which is not representable computably over ℚ, so
the transform is a parameter `t`, given the axis log flag; every theorem
below quantifies over `t`), then interpolate linearly from the bounds to
the grid and round/clamp.  Row 0 is the top row (`y_max`). -/
def map_point (t : Bool → ℚ → ℚ) (o : Options) (p : ℚ × ℚ) : Nat × Nat :=
  let tx := t o.x_as_log
  let ty := t o.y_as_log
  let col := roundClampNat
    ((tx p.1 - tx o.x_min) / (tx o.x_max - tx o.x_min) * ((o.width : ℚ) - 1)) o.width
  let row := roundClampNat
    ((ty o.y_max - ty p.2) / (ty o.y_max - ty o.y_min) * ((o.height : ℚ) - 1)) o.height
  (row, col)

/-- Modelled from the spec: §4.4 — discrete straight segment between two
grid cells (inclusive of both endpoints), used in `lines` mode. -/
def segment_cells (p q : Nat × Nat) : List (Nat × Nat) :=
  let dr : Int := (q.1 : Int) - (p.1 : Int)
  let dc : Int := (q.2 : Int) - (p.2 : Int)
  let n : Nat := max dr.natAbs dc.natAbs
  (List.range (n + 1)).map (fun i =>
    (((p.1 : Int) + dr * i / (n : Int)).toNat, ((p.2 : Int) + dc * i / (n : Int)).toNat))

/-- Modelled from the spec: §4.4 Grid Rasterizer, one series — mark the
cell of every valid point, and in `lines` mode additionally the cells of
the segments between consecutive valid points. -/
def series_marks (t : Bool → ℚ → ℚ) (o : Options) (xs ys : List (Option ℚ)) :
    List (Nat × Nat) :=
  let cells := (valid_points o.x_as_log o.y_as_log xs ys).map (map_point t o)
  cells ++ (if o.lines then (cells.zip cells.tail).flatMap
    (fun pq => segment_cells pq.1 pq.2) else [])

/-- All marked cells across all series. -/
def all_marks (t : Bool → ℚ → ℚ) (ms : MultiSeries) (o : Options) :
    List (Nat × Nat) :=
  ((ms.xs.zip ms.ys).map (fun s => series_marks t o s.1 s.2)).flatten

/-- The glyph used for a marked cell. -/
def markChar : Char := '*'

/-- One rendered grid row: a glyph where the cell is marked, blank
otherwise. -/
def grid_row (marks : List (Nat × Nat)) (width r : Nat) : String :=
  String.mk ((List.range width).map
    (fun c => if (r, c) ∈ marks then markChar else ' '))

/-- The `height` rendered grid rows, top to bottom. -/
def pixel_rows (marks : List (Nat × Nat)) (width height : Nat) : List String :=
  (List.range height).map (grid_row marks width)

/-- A horizontal border line of the plot box. -/
def horizontal_border (w : Nat) : String :=
  String.mk (List.replicate w '-')

/-- The x-axis label line below the plot box. -/
def x_axis_line (o : Options) : String :=
  "x: " ++ toString o.x_min ++ " .. " ++ toString o.x_max

/-- One legend line per label (spec §4.5: legend is one line per series
label). -/
def legend_lines (ll : Option (List String)) : List String :=
  (ll.getD []).map (fun s => "* " ++ s)

/-- Number of legend lines. -/
def legend_line_count (ll : Option (List String)) : Nat :=
  (ll.getD []).length

/-- Modelled from the spec: §4.5 — `sections.generate_body`: the plot box
(top border, `height` grid rows, bottom border), the x-axis label line,
and the legend lines. -/
def generate_body (t : Bool → ℚ → ℚ) (ms : MultiSeries) (o : Options) :
    List String :=
  let marks := all_marks t ms o
  [horizontal_border o.width] ++ pixel_rows marks o.width o.height
    ++ [horizontal_border o.width, x_axis_line o] ++ legend_lines o.legend_labels

/-- Modelled from the spec: §4.5 — `sections.generate_header`: a single
title line (title text plus a summary of the current bounds). -/
def generate_header (o : Options) : List String :=
  [(o.title.getD "") ++ " y: " ++ toString o.y_min ++ " .. " ++ toString o.y_max]

/-- Number of header lines of the one-shot render. -/
def fixed_header_lines : Nat := 1

/-- Number of fixed footer lines of the body (bottom border, x-axis line;
the top border counted with them as the box furniture around the `height`
grid rows). -/
def fixed_footer_lines : Nat := 3

/-- Embedding of `_generate_plot_str_list` (uniplot.py lines 97-115):
header (when requested) followed by the body.  Ignores the `interactive`
option. -/
def generate_plot_str_list (t : Bool → ℚ → ℚ) (ms : MultiSeries) (o : Options)
    (with_header : Bool) : List String :=
  (if with_header then generate_header o else []) ++ generate_body t ms o

/-- Embedding of `plot_to_string` (uniplot.py lines 124-134): construct the
canonical series, validate the options, and return the full rendered lines;
structural errors abort with no lines produced. -/
def plot_to_string (t : Bool → ℚ → ℚ) (ys : RawInput) (xs : Option RawInput)
    (uo : UserOptions) : Except PlotError (List String) :=
  match mkMultiSeries xs ys with
  | .error e => .error e
  | .ok ms =>
    match validate_and_transform_options ms uo with
    | .error e => .error e
    | .ok o => .ok (generate_plot_str_list t ms o true)

/-- Observable events of the `plot` entry point: printing the rendered
plot (with or without header), printing the instruction line, reading a
key from `getch`, and erasing previous lines. -/
inductive Event where
  | renderEvent (withHeader : Bool) (lines : List String)
  | instr
  | keyRead (k : Char)
  | eraseLines (n : Nat)
  deriving DecidableEq

/-- Embedding of the interactive `while options.interactive` loop of
`plot` (uniplot.py lines 31-36), as the event trace it produces given the
sequence of keys `getch` will return.  Each iteration prints the
instruction line and reads one key (`_process_action`), assigns the
returned flag to `options.interactive`, erases the previous output region
(`_erase_previous_lines`) and redraws the plot without the header; the
`while` condition then stops the loop when the flag was `false`.  An
exhausted key list means `getch` blocks forever: no further events are
observed. -/
def interactive_loop (t : Bool → ℚ → ℚ) (ms : MultiSeries) (o : Options) :
    List Char → List Event
  | [] => []
  | k :: ks =>
    let r := process_action o k
    [Event.instr, Event.keyRead k, Event.eraseLines (nr_lines_to_erase r.2),
     Event.renderEvent false (generate_plot_str_list t ms r.2 false)]
      ++ (if r.1 then interactive_loop t ms r.2 ks else [])

/-- Embedding of `plot` (uniplot.py lines 10-36), as the event trace it
produces: print the full render (with header), then run the interactive
loop when the `interactive` option is set. -/
def plot_trace (t : Bool → ℚ → ℚ) (ys : RawInput) (xs : Option RawInput)
    (uo : UserOptions) (keys : List Char) : Except PlotError (List Event) :=
  match mkMultiSeries xs ys with
  | .error e => .error e
  | .ok ms =>
    match validate_and_transform_options ms uo with
    | .error e => .error e
    | .ok o =>
      .ok (Event.renderEvent true (generate_plot_str_list t ms o true)
        :: (if o.interactive then interactive_loop t ms o keys else []))

/-- Number of `keyRead` events in a trace. -/
def count_key_reads (es : List Event) : Nat :=
  (es.filter (fun e => match e with | .keyRead _ => true | _ => false)).length

/-- Number of `renderEvent` events in a trace. -/
def count_renders (es : List Event) : Nat :=
  (es.filter (fun e => match e with | .renderEvent _ _ => true | _ => false)).length

/-- An options mapping sent to / stored by a `plot_gen` session, modelled
as an association list from option names to values (first binding wins on
lookup). -/
abbrev KwMap := List (String × ℚ)

/-- Python `dict.update`: bindings of `upd` override those of `base`. -/
def update_kwargs (base upd : KwMap) : KwMap :=
  List.append upd base

/-- State of a `plot_gen` generator session: the stored options mapping
and whether the next `send` is the first one (the generator suspended at
line 53 rather than at line 58 of uniplot.py). -/
structure GenState where
  kwargs : KwMap
  first : Bool

/-- One `send(ys, xs, n_kwargs)` to the generator. -/
structure SendInput where
  data : List (Option ℚ)
  n_kwargs : KwMap

/-- The frame printed in response to one `send`: which options mapping was
used to render it, and the data it showed. -/
structure Frame where
  kwargs_used : KwMap
  data : List (Option ℚ)

/-- Embedding of one resumption of `plot_gen` (uniplot.py lines 39-62).
The generator first suspends at `ys, xs, n_kwargs = yield` (line 53); the
first send therefore renders with the session's stored kwargs and its
`n_kwargs` is never merged.  Every later send resumes at line 58: if its
`n_kwargs` is non-empty it is merged into the stored kwargs
(`kwargs.update(n_kwargs)`) before the loop renders that send's frame. -/
def gen_send (st : GenState) (inp : SendInput) : GenState × Frame :=
  if st.first then
    ({ kwargs := st.kwargs, first := false },
     { kwargs_used := st.kwargs, data := inp.data })
  else
    let kw := if inp.n_kwargs.isEmpty then st.kwargs
      else update_kwargs st.kwargs inp.n_kwargs
    ({ kwargs := kw, first := false }, { kwargs_used := kw, data := inp.data })

/-- A fresh `plot_gen(**kwargs)` session, suspended at line 53. -/
def gen_init (kwargs : KwMap) : GenState :=
  { kwargs := kwargs, first := true }

/-- Run a sequence of sends, returning the final session state. -/
def gen_run (st : GenState) : List SendInput → GenState
  | [] => st
  | inp :: rest => gen_run (gen_send st inp).1 rest

/-- Errors raised by `histogram`. -/
inductive HistError where
  | assertionFailed
  deriving DecidableEq, Repr

/-- Modelled from the spec: §3 MultiSeries aggregate statistics —
`MultiSeries.y_min`, the minimum over all values, falling back to the
default range lower bound 0 when there are none. -/
def ms_y_min (ys : List (List ℚ)) : ℚ :=
  (listMin ys.flatten).getD 0

/-- Modelled from the spec: §3 — `MultiSeries.y_max`, falling back to the
default range upper bound 1 when there are no values. -/
def ms_y_max (ys : List (List ℚ)) : ℚ :=
  (listMax ys.flatten).getD 1

/-- Embedding of the bin-edge computation of `histogram` (uniplot.py lines
142-182): resolve each missing bin limit from the data min/max, assert
`bins_max_real > bins_min_real` (modelled as the `assertionFailed` error),
widen each limit that was left unset by 10% of the original span, and
return the `bins + 1` equally spaced bin edges.  The subsequent bar-chart
point computation and `plot` call are not modelled here. -/
def histogram (xs : List (List ℚ)) (bins : Nat)
    (bins_min bins_max : Option ℚ) : Except HistError (List ℚ) :=
  let bins_min_real : ℚ := bins_min.getD (ms_y_min xs)
  let bins_max_real : ℚ := bins_max.getD (ms_y_max xs)
  if bins_max_real > bins_min_real then
    let delta : ℚ := bins_max_real - bins_min_real
    let lo : ℚ := if bins_min.isNone then bins_min_real - delta / 10 else bins_min_real
    let hi : ℚ := if bins_max.isNone then bins_max_real + delta / 10 else bins_max_real
    .ok ((List.range (bins + 1)).map (fun (i : Nat) => lo + (i : ℚ) * (hi - lo) / (bins : ℚ)))
  else .error .assertionFailed

/-! ## Helper lemmas -/

/-- The keys (after lowercasing) on which `_process_action` acts or quits. -/
def handledKeys : List Char := ['h', 'l', 'j', 'k', 'u', 'n', 'r', 'q', escKey]

theorem process_action_fst_false_iff (o : Options) (k : Char) :
    (process_action o k).1 = false ↔ (k.toLower = 'q' ∨ k.toLower = escKey) := by
  simp only [process_action]
  split_ifs with h1 h2 h3 h4 h5 h6 h7 h8 <;> simp_all [escKey]

theorem process_action_snd_of_quit (o : Options) (k : Char)
    (h : (process_action o k).1 = false) : (process_action o k).2 = o := by
  revert h
  simp only [process_action]
  split_ifs <;> simp

theorem process_action_default (o : Options) (k : Char)
    (h : k.toLower ∉ handledKeys) : process_action o k = (true, o) := by
  have h1 : ¬(k.toLower = 'h') := fun hh => h (by rw [hh]; decide)
  have h2 : ¬(k.toLower = 'l') := fun hh => h (by rw [hh]; decide)
  have h3 : ¬(k.toLower = 'j') := fun hh => h (by rw [hh]; decide)
  have h4 : ¬(k.toLower = 'k') := fun hh => h (by rw [hh]; decide)
  have h5 : ¬(k.toLower = 'u') := fun hh => h (by rw [hh]; decide)
  have h6 : ¬(k.toLower = 'n') := fun hh => h (by rw [hh]; decide)
  have h7 : ¬(k.toLower = 'r') := fun hh => h (by rw [hh]; decide)
  have h8 : ¬(k.toLower = 'q') := fun hh => h (by rw [hh]; decide)
  have h9 : ¬(k.toLower = escKey) := fun hh => h (by rw [hh]; decide)
  simp [process_action, h1, h2, h3, h4, h5, h6, h7, h8, h9]

theorem process_action_quit (o : Options) (k : Char)
    (h : k.toLower = 'q' ∨ k.toLower = escKey) : process_action o k = (false, o) := by
  rcases h with h | h <;> simp [process_action, h, escKey]

/-! ## C2 -/

/-- C2: In the `Running` state, `_process_action` implements exactly the
spec's transition table — h/l pan the x view left/right, j/k pan the y view
down/up, u zooms in, n zooms out, r resets the view, q and ESC stop the
loop (return `false`), any other (lowercased) key is a no-op that keeps
running; and the handler is a total function, returning normally on every
possible key value. -/
theorem uniplotC2_key_transition_table (o : Options) :
    process_action o 'h' = (true, shift_view_left o) ∧
    process_action o 'l' = (true, shift_view_right o) ∧
    process_action o 'j' = (true, shift_view_down o) ∧
    process_action o 'k' = (true, shift_view_up o) ∧
    process_action o 'u' = (true, zoom_in o) ∧
    process_action o 'n' = (true, zoom_out o) ∧
    process_action o 'r' = (true, reset_view o) ∧
    (∀ k : Char, (k.toLower = 'q' ∨ k.toLower = escKey) →
      process_action o k = (false, o)) ∧
    (∀ k : Char, k.toLower ∉ handledKeys → process_action o k = (true, o)) ∧
    (∀ k : Char, ∃ r : Bool × Options, process_action o k = r) :=
  ⟨rfl, rfl, rfl, rfl, rfl, rfl, rfl,
   process_action_quit o, process_action_default o, fun _ => ⟨_, rfl⟩⟩

/-- Sample concrete options for witnesses. -/
def sampleOptions : Options :=
  ⟨64, 17, false, false, false, false, none, none, 0, 10, 0, 10, 0, 10, 0, 10⟩

/-- Witness for C2 at concrete keys: the pan key, a quit key (uppercase Q,
lowercased by the handler), the ESC code, and an unhandled key. -/
theorem uniplotC2_witness :
    process_action sampleOptions 'h' = (true, shift_view_left sampleOptions) ∧
    process_action sampleOptions 'Q' = (false, sampleOptions) ∧
    process_action sampleOptions escKey = (false, sampleOptions) ∧
    process_action sampleOptions 'x' = (true, sampleOptions) :=
  ⟨(uniplotC2_key_transition_table sampleOptions).1,
   (uniplotC2_key_transition_table sampleOptions).2.2.2.2.2.2.2.1 'Q' (Or.inl (by decide)),
   (uniplotC2_key_transition_table sampleOptions).2.2.2.2.2.2.2.1 escKey (Or.inr (by decide)),
   (uniplotC2_key_transition_table sampleOptions).2.2.2.2.2.2.2.2.1 'x' (by decide)⟩

/-! ## Interactive loop trace lemmas (shared by C4 and C10) -/

theorem interactive_loop_cons (t : Bool → ℚ → ℚ) (ms : MultiSeries)
    (o : Options) (k : Char) (ks : List Char) :
    interactive_loop t ms o (k :: ks) =
      [Event.instr, Event.keyRead k,
       Event.eraseLines (nr_lines_to_erase (process_action o k).2),
       Event.renderEvent false (generate_plot_str_list t ms (process_action o k).2 false)]
        ++ (if (process_action o k).1 then
              interactive_loop t ms (process_action o k).2 ks else []) := rfl

theorem interactive_loop_quit (t : Bool → ℚ → ℚ) (ms : MultiSeries)
    (o : Options) (k : Char) (ks : List Char)
    (h : (process_action o k).1 = false) :
    interactive_loop t ms o (k :: ks) =
      [Event.instr, Event.keyRead k, Event.eraseLines (nr_lines_to_erase o),
       Event.renderEvent false (generate_plot_str_list t ms o false)] := by
  rw [interactive_loop_cons, process_action_snd_of_quit o k h, h]
  simp

theorem interactive_loop_continue (t : Bool → ℚ → ℚ) (ms : MultiSeries)
    (o : Options) (k : Char) (ks : List Char)
    (h : (process_action o k).1 = true) :
    interactive_loop t ms o (k :: ks) =
      [Event.instr, Event.keyRead k,
       Event.eraseLines (nr_lines_to_erase (process_action o k).2),
       Event.renderEvent false (generate_plot_str_list t ms (process_action o k).2 false)]
        ++ interactive_loop t ms (process_action o k).2 ks := by
  rw [interactive_loop_cons, h]
  simp

theorem count_renders_eq_count_key_reads (t : Bool → ℚ → ℚ) (ms : MultiSeries) :
    ∀ (keys : List Char) (o : Options),
      count_renders (interactive_loop t ms o keys)
        = count_key_reads (interactive_loop t ms o keys) := by
  intro keys
  induction keys with
  | nil =>
    intro o
    simp [interactive_loop, count_renders, count_key_reads]
  | cons k ks ih =>
    intro o
    rw [interactive_loop_cons]
    by_cases h : (process_action o k).1 = true
    · simp only [count_renders, count_key_reads, List.filter_append, h, if_true,
        List.length_append]
      have hih := ih (process_action o k).2
      simp only [count_renders, count_key_reads] at hih
      simp [List.filter, hih]
    · simp [count_renders, count_key_reads, List.filter_append, h]

/-- The linear-scale axis transform (identity); used to instantiate the
abstract transform parameter in witnesses. -/
def idTransform : Bool → ℚ → ℚ := fun _ v => v

/-- Sample concrete series for witnesses. -/
def sampleMS : MultiSeries := ⟨[[some 0, some 1]], [[some 1, some 2]]⟩

/-! ## C4 -/

/-- C4: the interactive loop of `plot` — after a quit key (q/ESC) the loop
performs its erase + redraw and stops, reading no further key (the
remaining key list `ks` is never consumed and the resulting trace contains
exactly the one `keyRead`); after a non-terminal key the trace is exactly
instruction print, key read, one erase, one redraw, and then the next
iteration (so exactly one re-render happens between consecutive key
reads); and over any key sequence the loop performs exactly one render per
key read. -/
theorem uniplotC4_loop_single_render_per_key (t : Bool → ℚ → ℚ)
    (ms : MultiSeries) (o : Options) (keys ks : List Char) (k : Char) :
    ((k.toLower = 'q' ∨ k.toLower = escKey) →
      interactive_loop t ms o (k :: ks) =
        [Event.instr, Event.keyRead k, Event.eraseLines (nr_lines_to_erase o),
         Event.renderEvent false (generate_plot_str_list t ms o false)]) ∧
    (¬(k.toLower = 'q' ∨ k.toLower = escKey) →
      interactive_loop t ms o (k :: ks) =
        [Event.instr, Event.keyRead k,
         Event.eraseLines (nr_lines_to_erase (process_action o k).2),
         Event.renderEvent false (generate_plot_str_list t ms (process_action o k).2 false)]
          ++ interactive_loop t ms (process_action o k).2 ks) ∧
    count_renders (interactive_loop t ms o keys)
      = count_key_reads (interactive_loop t ms o keys) := by
  refine ⟨fun h => ?_, fun h => ?_, count_renders_eq_count_key_reads t ms keys o⟩
  · exact interactive_loop_quit t ms o k ks ((process_action_fst_false_iff o k).mpr h)
  · have ht : (process_action o k).1 = true := by
      cases hb : (process_action o k).1
      · exact absurd ((process_action_fst_false_iff o k).mp hb) h
      · rfl
    exact interactive_loop_continue t ms o k ks ht

/-- Witness for C4: a quit key, a non-terminal key, and the render count
over a concrete key sequence. -/
theorem uniplotC4_witness :
    interactive_loop idTransform sampleMS sampleOptions ['q'] =
      [Event.instr, Event.keyRead 'q', Event.eraseLines (nr_lines_to_erase sampleOptions),
       Event.renderEvent false (generate_plot_str_list idTransform sampleMS sampleOptions false)] ∧
    interactive_loop idTransform sampleMS sampleOptions ('x' :: ['q']) =
      [Event.instr, Event.keyRead 'x',
       Event.eraseLines (nr_lines_to_erase (process_action sampleOptions 'x').2),
       Event.renderEvent false
         (generate_plot_str_list idTransform sampleMS (process_action sampleOptions 'x').2 false)]
        ++ interactive_loop idTransform sampleMS (process_action sampleOptions 'x').2 ['q'] ∧
    count_renders (interactive_loop idTransform sampleMS sampleOptions ['x', 'q'])
      = count_key_reads (interactive_loop idTransform sampleMS sampleOptions ['x', 'q']) :=
  ⟨(uniplotC4_loop_single_render_per_key idTransform sampleMS sampleOptions
      ['x', 'q'] [] 'q').1 (Or.inl (by decide)),
   (uniplotC4_loop_single_render_per_key idTransform sampleMS sampleOptions
      ['x', 'q'] ['q'] 'x').2.1 (by decide),
   (uniplotC4_loop_single_render_per_key idTransform sampleMS sampleOptions
      ['x', 'q'] [] 'q').2.2⟩

/-! ## C10 -/

/-- C10: after the terminal q/ESC keypress the loop performs exactly one
final erase followed by one redraw of the plot body without the header
(the render after the `Stopped` transition), and then returns — the trace
of the final iteration is exactly these events, with exactly one render
and one key read in it. -/
theorem uniplotC10_final_render_after_stop (t : Bool → ℚ → ℚ)
    (ms : MultiSeries) (o : Options) (k : Char) (ks : List Char)
    (h : k.toLower = 'q' ∨ k.toLower = escKey) :
    interactive_loop t ms o (k :: ks) =
      [Event.instr, Event.keyRead k] ++
        [Event.eraseLines (nr_lines_to_erase o),
         Event.renderEvent false (generate_plot_str_list t ms o false)] ∧
    count_renders (interactive_loop t ms o (k :: ks)) = 1 ∧
    count_key_reads (interactive_loop t ms o (k :: ks)) = 1 := by
  have hq := (process_action_fst_false_iff o k).mpr h
  refine ⟨?_, ?_, ?_⟩ <;> rw [interactive_loop_quit t ms o k ks hq]
  · rfl
  · simp [count_renders, List.filter]
  · simp [count_key_reads, List.filter]

/-- Witness for C10 at the ESC key. -/
theorem uniplotC10_witness :
    interactive_loop idTransform sampleMS sampleOptions [escKey] =
      [Event.instr, Event.keyRead escKey] ++
        [Event.eraseLines (nr_lines_to_erase sampleOptions),
         Event.renderEvent false (generate_plot_str_list idTransform sampleMS sampleOptions false)] ∧
    count_renders (interactive_loop idTransform sampleMS sampleOptions [escKey]) = 1 ∧
    count_key_reads (interactive_loop idTransform sampleMS sampleOptions [escKey]) = 1 :=
  uniplotC10_final_render_after_stop idTransform sampleMS sampleOptions escKey []
    (Or.inr (by decide))

/-! ## C5 -/

/-- The pan/zoom operations the interactive controller can apply to a view
configuration (reset excluded: the round-trip claim applies it last). -/
inductive ViewAction where
  | panLeft
  | panRight
  | panUp
  | panDown
  | zoomInAct
  | zoomOutAct
  deriving DecidableEq

/-- Apply one pan/zoom operation. -/
def apply_action (o : Options) : ViewAction → Options
  | .panLeft => shift_view_left o
  | .panRight => shift_view_right o
  | .panUp => shift_view_up o
  | .panDown => shift_view_down o
  | .zoomInAct => zoom_in o
  | .zoomOutAct => zoom_out o

/-- Apply a sequence of pan/zoom operations in order. -/
def apply_actions (o : Options) (acts : List ViewAction) : Options :=
  acts.foldl apply_action o

theorem apply_action_preserves_orig (o : Options) (a : ViewAction) :
    (apply_action o a).orig_x_min = o.orig_x_min ∧
    (apply_action o a).orig_x_max = o.orig_x_max ∧
    (apply_action o a).orig_y_min = o.orig_y_min ∧
    (apply_action o a).orig_y_max = o.orig_y_max := by
  cases a <;> exact ⟨rfl, rfl, rfl, rfl⟩

theorem apply_actions_preserves_orig (acts : List ViewAction) : ∀ o : Options,
    (apply_actions o acts).orig_x_min = o.orig_x_min ∧
    (apply_actions o acts).orig_x_max = o.orig_x_max ∧
    (apply_actions o acts).orig_y_min = o.orig_y_min ∧
    (apply_actions o acts).orig_y_max = o.orig_y_max := by
  induction acts with
  | nil => exact fun o => ⟨rfl, rfl, rfl, rfl⟩
  | cons a rest ih =>
    intro o
    have h1 := apply_action_preserves_orig o a
    have h2 := ih (apply_action o a)
    exact ⟨h2.1.trans h1.1, h2.2.1.trans h1.2.1,
           h2.2.2.1.trans h1.2.2.1, h2.2.2.2.trans h1.2.2.2⟩

/-- The fields `validate_and_transform_options` copies through, and the
capture of the derived bounds as the construction-time bounds. -/
theorem validate_ok_fields (ms : MultiSeries) (uo : UserOptions) (o : Options)
    (h : validate_and_transform_options ms uo = .ok o) :
    o.width = uo.width ∧ o.height = uo.height ∧ o.interactive = uo.interactive ∧
    o.lines = uo.lines ∧ o.x_as_log = uo.x_as_log ∧ o.y_as_log = uo.y_as_log ∧
    o.title = uo.title ∧ o.legend_labels = uo.legend_labels ∧
    o.orig_x_min = o.x_min ∧ o.orig_x_max = o.x_max ∧
    o.orig_y_min = o.y_min ∧ o.orig_y_max = o.y_max := by
  unfold validate_and_transform_options at h
  split at h
  · exact absurd h (by simp)
  · exact absurd h (by simp)
  · injection h with h
    subst h
    exact ⟨rfl, rfl, rfl, rfl, rfl, rfl, rfl, rfl, rfl, rfl, rfl, rfl⟩

/-- C5: round-trip — `reset_view` after any sequence of pan/zoom
operations restores the axis bounds exactly (in this exact-rational model,
bit-for-bit) to the bounds the validated view configuration was
constructed with. -/
theorem uniplotC5_reset_roundtrip (ms : MultiSeries) (uo : UserOptions)
    (o : Options) (h : validate_and_transform_options ms uo = .ok o)
    (acts : List ViewAction) :
    (reset_view (apply_actions o acts)).x_min = o.x_min ∧
    (reset_view (apply_actions o acts)).x_max = o.x_max ∧
    (reset_view (apply_actions o acts)).y_min = o.y_min ∧
    (reset_view (apply_actions o acts)).y_max = o.y_max := by
  have horig := apply_actions_preserves_orig acts o
  have hfields := validate_ok_fields ms uo o h
  refine ⟨?_, ?_, ?_, ?_⟩
  · show (apply_actions o acts).orig_x_min = o.x_min
    exact horig.1.trans hfields.2.2.2.2.2.2.2.2.1
  · show (apply_actions o acts).orig_x_max = o.x_max
    exact horig.2.1.trans hfields.2.2.2.2.2.2.2.2.2.1
  · show (apply_actions o acts).orig_y_min = o.y_min
    exact horig.2.2.1.trans hfields.2.2.2.2.2.2.2.2.2.2.1
  · show (apply_actions o acts).orig_y_max = o.y_max
    exact horig.2.2.2.trans hfields.2.2.2.2.2.2.2.2.2.2.2

/-- User options with explicit bounds 0..10 on both axes, for witnesses. -/
def boundedUserOptions : UserOptions :=
  ⟨64, 17, false, false, false, false, none, none, some 0, some 10, some 0, some 10⟩

/-- The options `validate_and_transform_options` derives from
`boundedUserOptions` (bounds and captured bounds both 0..10). -/
def boundedOptions : Options :=
  ⟨64, 17, false, false, false, false, none, none, 0, 10, 0, 10, 0, 10, 0, 10⟩

/-- Witness for C5: a concrete validated view, panned left then zoomed in
then panned up, resets back to its construction bounds. -/
theorem uniplotC5_witness :
    (reset_view (apply_actions boundedOptions
      [ViewAction.panLeft, ViewAction.zoomInAct, ViewAction.panUp])).x_min
        = boundedOptions.x_min ∧
    (reset_view (apply_actions boundedOptions
      [ViewAction.panLeft, ViewAction.zoomInAct, ViewAction.panUp])).x_max
        = boundedOptions.x_max ∧
    (reset_view (apply_actions boundedOptions
      [ViewAction.panLeft, ViewAction.zoomInAct, ViewAction.panUp])).y_min
        = boundedOptions.y_min ∧
    (reset_view (apply_actions boundedOptions
      [ViewAction.panLeft, ViewAction.zoomInAct, ViewAction.panUp])).y_max
        = boundedOptions.y_max :=
  uniplotC5_reset_roundtrip sampleMS boundedUserOptions boundedOptions rfl
    [ViewAction.panLeft, ViewAction.zoomInAct, ViewAction.panUp]

/-! ## C7 -/

theorem bothMultiCountMismatch_iff (a b : RawInput) :
    bothMultiCountMismatch a b = true ↔
      ∃ xls yls, a = .multi xls ∧ b = .multi yls ∧ xls.length ≠ yls.length := by
  cases a <;> cases b <;> simp [bothMultiCountMismatch, bne_iff_ne]

theorem anyLengthMismatch_iff :
    ∀ (xs ys : List (List (Option ℚ))),
      anyLengthMismatch xs ys = true ↔
        ∃ p ∈ xs.zip ys, p.1.length ≠ p.2.length := by
  intro xs
  induction xs with
  | nil => intro ys; simp [anyLengthMismatch]
  | cons x xs ih =>
    intro ys
    cases ys with
    | nil => simp [anyLengthMismatch]
    | cons y ys =>
      simp [anyLengthMismatch, List.zip_cons_cons, ih ys, bne_iff_ne]

/-- C7: `MultiSeries` construction fails with `ShapeMismatch` — fatally,
before any lines are produced by `plot_to_string` — exactly when x and y
are both multi-series with differing series counts, or when some x series
and its corresponding y series (same position after pairing a single x
with every y series) have different lengths; `ShapeMismatch` is the only
construction error, and with x omitted construction always succeeds. -/
theorem uniplotC7_shape_mismatch_iff (xsIn ys : RawInput) :
    (mkMultiSeries (some xsIn) ys = .error .shapeMismatch ↔
      (∃ xls yls, xsIn = .multi xls ∧ ys = .multi yls ∧ xls.length ≠ yls.length) ∨
      (∃ p ∈ (broadcastXs xsIn (toSeriesList ys).length).zip (toSeriesList ys),
         p.1.length ≠ p.2.length)) ∧
    (∀ e, mkMultiSeries (some xsIn) ys = .error e → e = .shapeMismatch) ∧
    (∃ ms, mkMultiSeries none ys = .ok ms) ∧
    (∀ (t : Bool → ℚ → ℚ) (uo : UserOptions),
      mkMultiSeries (some xsIn) ys = .error .shapeMismatch →
      plot_to_string t ys (some xsIn) uo = .error .shapeMismatch) := by
  refine ⟨?_, ?_, ⟨_, rfl⟩, ?_⟩
  · rw [← bothMultiCountMismatch_iff, ← anyLengthMismatch_iff]
    simp only [mkMultiSeries]
    by_cases h1 : bothMultiCountMismatch xsIn ys = true
    · simp [h1]
    · by_cases h2 : anyLengthMismatch (broadcastXs xsIn (toSeriesList ys).length)
          (toSeriesList ys) = true
      · simp [h1, h2]
      · simp [h1, h2]
  · intro e he
    simp only [mkMultiSeries] at he
    by_cases h1 : bothMultiCountMismatch xsIn ys = true
    · rw [if_pos h1] at he
      injection he with he
      exact he.symm
    · rw [if_neg h1] at he
      by_cases h2 : anyLengthMismatch (broadcastXs xsIn (toSeriesList ys).length)
          (toSeriesList ys) = true
      · rw [if_pos h2] at he
        injection he with he
        exact he.symm
      · rw [if_neg h2] at he
        exact absurd he (by simp)
  · intro t uo he
    unfold plot_to_string
    rw [he]

/-- Witness for C7: two x series against one y series is a series-count
mismatch, surfaced unchanged by `plot_to_string`. -/
theorem uniplotC7_witness :
    mkMultiSeries (some (RawInput.multi [[some 1], [some 2]]))
      (RawInput.multi [[some 1]]) = .error .shapeMismatch ∧
    plot_to_string idTransform (RawInput.multi [[some 1]])
      (some (RawInput.multi [[some 1], [some 2]])) boundedUserOptions
      = .error .shapeMismatch := by
  have h := uniplotC7_shape_mismatch_iff (RawInput.multi [[some 1], [some 2]])
    (RawInput.multi [[some 1]])
  have herr := h.1.mpr (Or.inl ⟨[[some 1], [some 2]], [[some 1]], rfl, rfl, by decide⟩)
  exact ⟨herr, h.2.2.2 idTransform boundedUserOptions herr⟩

/-! ## C9 -/

theorem listMin_eq_of_all_eq : ∀ (l : List ℚ) (v : ℚ),
    (∀ w ∈ l, w = v) → l ≠ [] → listMin l = some v := by
  intro l v
  induction l with
  | nil => intro _ h; exact absurd rfl h
  | cons x xs ih =>
    intro hall _
    have hx : x = v := hall x (by simp)
    cases hxs : listMin xs with
    | none => simp [listMin, hxs, hx]
    | some m =>
      have hne : xs ≠ [] := by
        intro hn
        rw [hn] at hxs
        exact absurd hxs (by simp [listMin])
      have hm := ih (fun w hw => hall w (by simp [hw])) hne
      rw [hxs] at hm
      injection hm with hm
      simp [listMin, hxs, hx, hm]

theorem listMax_eq_of_all_eq : ∀ (l : List ℚ) (v : ℚ),
    (∀ w ∈ l, w = v) → l ≠ [] → listMax l = some v := by
  intro l v
  induction l with
  | nil => intro _ h; exact absurd rfl h
  | cons x xs ih =>
    intro hall _
    have hx : x = v := hall x (by simp)
    cases hxs : listMax xs with
    | none => simp [listMax, hxs, hx]
    | some m =>
      have hne : xs ≠ [] := by
        intro hn
        rw [hn] at hxs
        exact absurd hxs (by simp [listMax])
      have hm := ih (fun w hw => hall w (by simp [hw])) hne
      rw [hxs] at hm
      injection hm with hm
      simp [listMax, hxs, hx, hm]

/-- The effective lower bin edge of `histogram`: the resolved lower limit,
widened down by 10% of the original span exactly when `bins_min` was left
unset. -/
def histLo (xss : List (List ℚ)) (bmin bmax : Option ℚ) : ℚ :=
  let m := bmin.getD (ms_y_min xss)
  let M := bmax.getD (ms_y_max xss)
  if bmin.isNone then m - (M - m) / 10 else m

/-- The effective upper bin edge of `histogram`: the resolved upper limit,
widened up by 10% of the original span exactly when `bins_max` was left
unset. -/
def histHi (xss : List (List ℚ)) (bmin bmax : Option ℚ) : ℚ :=
  let m := bmin.getD (ms_y_min xss)
  let M := bmax.getD (ms_y_max xss)
  if bmax.isNone then M + (M - m) / 10 else M

/-- C9: `histogram` asserts a strictly positive value range
(`bins_max_real > bins_min_real`): on any input whose values are all equal
(with both bin limits left unset) the assertion fails instead of a span
being synthesized, and whenever the resolved limits violate the assertion
the call fails; when the assertion holds, each limit that was left unset is
widened by 10% of the original span and the `bins + 1` equally spaced bin
edges are returned, running from the widened lower limit to the widened
upper limit. -/
theorem uniplotC9_histogram_assertion_and_edges (xss : List (List ℚ))
    (bins : Nat) (v : ℚ) (bmin bmax : Option ℚ) :
    ((∀ w ∈ xss.flatten, w = v) → xss.flatten ≠ [] →
      histogram xss bins none none = .error .assertionFailed) ∧
    (¬(bmax.getD (ms_y_max xss) > bmin.getD (ms_y_min xss)) →
      histogram xss bins bmin bmax = .error .assertionFailed) ∧
    (bmax.getD (ms_y_max xss) > bmin.getD (ms_y_min xss) →
      ∃ edges, histogram xss bins bmin bmax = .ok edges ∧
        edges.length = bins + 1 ∧
        (0 < bins →
          edges[0]? = some (histLo xss bmin bmax) ∧
          edges[bins]? = some (histHi xss bmin bmax) ∧
          ∀ i, i < bins → ∀ a b, edges[i]? = some a → edges[i + 1]? = some b →
            b - a = (histHi xss bmin bmax - histLo xss bmin bmax) / (bins : ℚ))) := by
  refine ⟨fun hall hne => ?_, fun h => ?_, fun h => ?_⟩
  · have hmin : ms_y_min xss = v := by
      unfold ms_y_min
      rw [listMin_eq_of_all_eq xss.flatten v hall hne]
      rfl
    have hmax : ms_y_max xss = v := by
      unfold ms_y_max
      rw [listMax_eq_of_all_eq xss.flatten v hall hne]
      rfl
    simp [histogram, hmin, hmax]
  · simp [histogram, h]
  · have hidx : ∀ j, j < bins + 1 →
        ((List.range (bins + 1)).map (fun (i : Nat) => histLo xss bmin bmax
          + (i : ℚ) * (histHi xss bmin bmax - histLo xss bmin bmax) / (bins : ℚ)))[j]?
        = some (histLo xss bmin bmax
          + (j : ℚ) * (histHi xss bmin bmax - histLo xss bmin bmax) / (bins : ℚ)) := by
      intro j hj
      rw [List.getElem?_map, List.getElem?_range hj]
      rfl
    refine ⟨(List.range (bins + 1)).map (fun (i : Nat) => histLo xss bmin bmax
      + (i : ℚ) * (histHi xss bmin bmax - histLo xss bmin bmax) / (bins : ℚ)),
      ?_, ?_, fun hb => ⟨?_, ?_, ?_⟩⟩
    · unfold histogram histLo histHi
      rw [if_pos h]
    · rw [List.length_map, List.length_range]
    · rw [hidx 0 (Nat.succ_pos bins)]
      norm_num
    · have hb0 : (bins : ℚ) ≠ 0 := by
        exact_mod_cast Nat.pos_iff_ne_zero.mp hb
      rw [hidx bins (Nat.lt_succ_self bins)]
      have hfb : histLo xss bmin bmax + (bins : ℚ)
          * (histHi xss bmin bmax - histLo xss bmin bmax) / (bins : ℚ)
          = histHi xss bmin bmax := by
        field_simp
      rw [hfb]
    · intro i hi a b ha hbv
      rw [hidx i (Nat.lt_succ_of_lt hi)] at ha
      rw [hidx (i + 1) (Nat.succ_lt_succ hi)] at hbv
      injection ha with ha
      injection hbv with hbv
      rw [← ha, ← hbv]
      push_cast
      ring

/-- Witness for C9: an all-equal input fails the assertion; a ranged input
yields bin edges. -/
theorem uniplotC9_witness :
    histogram [[(5 : ℚ), 5], [5]] 20 none none = .error .assertionFailed ∧
    Except.isOk (histogram [[(1 : ℚ), 3]] 4 none none) = true := by
  refine ⟨(uniplotC9_histogram_assertion_and_edges [[(5 : ℚ), 5], [5]] 20 5
    none none).1 (by decide) (by decide), ?_⟩
  obtain ⟨edges, he, -, -⟩ := (uniplotC9_histogram_assertion_and_edges
    [[(1 : ℚ), 3]] 4 0 none none).2.2 (by decide)
  rw [he]
  rfl

/-! ## C8 -/

theorem lookup_append_of_none :
    ∀ (upd base : KwMap) (k : String), upd.lookup k = none →
      (upd ++ base).lookup k = base.lookup k := by
  intro upd
  induction upd with
  | nil => intro base k _; rfl
  | cons p rest ih =>
    intro base k h
    rw [List.cons_append]
    cases hk : k == p.1 with
    | true =>
      exfalso
      rw [List.lookup] at h
      rw [hk] at h
      exact absurd h (by simp)
    | false =>
      rw [List.lookup, hk]
      rw [List.lookup, hk] at h
      exact ih base k h

theorem gen_run_lookup_preserved :
    ∀ (rest : List SendInput) (st : GenState) (key : String),
      (∀ r ∈ rest, r.n_kwargs.lookup key = none) →
      (gen_run st rest).kwargs.lookup key = st.kwargs.lookup key := by
  intro rest
  induction rest with
  | nil => intro st key _; rfl
  | cons r rest ih =>
    intro st key hall
    rw [gen_run]
    rw [ih (gen_send st r).1 key (fun x hx => hall x (List.mem_cons_of_mem r hx))]
    by_cases hf : st.first = true
    · simp [gen_send, hf]
    · by_cases he : r.n_kwargs.isEmpty = true
      · simp [gen_send, hf, he]
      · simp only [gen_send, hf, he, if_false, Bool.false_eq_true]
        exact lookup_append_of_none r.n_kwargs st.kwargs key (hall r (by simp))

/-- C8 counterexample: in `plot_gen`, the options sent together with the
FIRST frame's data are never merged into the session kwargs (the generator
receives them at line 53, before the merge point at lines 58-60): after a
first send carrying `height := 5` the stored options do not contain the
binding, and the next frame is rendered without it — refuting the claim
that options sent with any frame's data are merged and affect the
successors. -/
theorem uniplotC8_first_send_options_dropped :
    ¬((gen_send (gen_init []) ⟨[], [("height", 5)]⟩).1.kwargs.lookup "height"
        = some 5) ∧
    (gen_send (gen_send (gen_init []) ⟨[], [("height", 5)]⟩).1
        ⟨[], []⟩).2.kwargs_used.lookup "height" = none := by
  constructor
  · intro h
    rw [show (gen_send (gen_init []) ⟨[], [("height", 5)]⟩).1.kwargs = [] from rfl] at h
    exact absurd h (by simp)
  · rfl

/-- C8 (amended): for every send AFTER the first, a non-empty options
mapping sent with the frame's data is merged into the session's stored
options (later bindings overriding older ones) and is used for that frame;
the merged options remain in effect for every later frame whose sends do
not override the binding.  The options sent with the first send of a
session are discarded. -/
theorem uniplotC8_options_retained_after_first (st : GenState)
    (inp : SendInput) (h1 : st.first = false) (h2 : inp.n_kwargs ≠ []) :
    (gen_send st inp).1.kwargs = update_kwargs st.kwargs inp.n_kwargs ∧
    (gen_send st inp).2.kwargs_used = update_kwargs st.kwargs inp.n_kwargs ∧
    (∀ (rest : List SendInput) (key : String),
      (∀ r ∈ rest, r.n_kwargs.lookup key = none) →
      (gen_run (gen_send st inp).1 rest).kwargs.lookup key
        = (update_kwargs st.kwargs inp.n_kwargs).lookup key) := by
  have hke : inp.n_kwargs.isEmpty = false := by
    cases hnk : inp.n_kwargs with
    | nil => exact absurd hnk h2
    | cons a l => rfl
  refine ⟨by simp [gen_send, h1, hke], by simp [gen_send, h1, hke], ?_⟩
  intro rest key hall
  rw [gen_run_lookup_preserved rest _ key hall]
  simp [gen_send, h1, hke]

/-- Witness for C8 (amended): a second send carrying `height := 5` is
merged over the stored `color := 1` and survives a further send with no
options. -/
theorem uniplotC8_witness :
    (gen_send ⟨[("color", 1)], false⟩ ⟨[], [("height", 5)]⟩).1.kwargs
      = update_kwargs [("color", 1)] [("height", 5)] ∧
    (gen_run (gen_send ⟨[("color", 1)], false⟩ ⟨[], [("height", 5)]⟩).1
        [⟨[], []⟩]).kwargs.lookup "height"
      = (update_kwargs [("color", 1)] [("height", 5)]).lookup "height" := by
  have h := uniplotC8_options_retained_after_first ⟨[("color", 1)], false⟩
    ⟨[], [("height", 5)]⟩ rfl (by simp)
  exact ⟨h.1, h.2.2 [⟨[], []⟩] "height" (by intro r hr; simp at hr; rw [hr]; rfl)⟩

/-! ## C1 -/

theorem listMin_isSome (l : List ℚ) (h : l ≠ []) : ∃ m, listMin l = some m := by
  cases l with
  | nil => exact absurd rfl h
  | cons x xs =>
    cases hxs : listMin xs with
    | none => exact ⟨x, by rw [listMin, hxs]⟩
    | some m => exact ⟨min x m, by rw [listMin, hxs]⟩

theorem listMax_isSome (l : List ℚ) (h : l ≠ []) : ∃ m, listMax l = some m := by
  cases l with
  | nil => exact absurd rfl h
  | cons x xs =>
    cases hxs : listMax xs with
    | none => exact ⟨x, by rw [listMax, hxs]⟩
    | some m => exact ⟨max x m, by rw [listMax, hxs]⟩

theorem derive_ok_of_ne_nil (log : Bool) (uMin uMax : Option ℚ)
    (vals : List ℚ) (h : vals ≠ []) :
    ∃ b, derive_axis_bounds log uMin uMax vals = .ok b := by
  obtain ⟨m, hm⟩ := listMin_isSome vals h
  obtain ⟨M, hM⟩ := listMax_isSome vals h
  cases uMin with
  | some m0 =>
    cases uMax with
    | some M0 => exact ⟨synthSpan log m0 M0, rfl⟩
    | none =>
      refine ⟨synthSpan log m0 M, ?_⟩
      simp [derive_axis_bounds, hM]
  | none =>
    cases uMax with
    | some M0 =>
      refine ⟨synthSpan log m M0, ?_⟩
      simp [derive_axis_bounds, hm]
    | none =>
      refine ⟨synthSpan log m M, ?_⟩
      simp [derive_axis_bounds, hm, hM]

theorem validate_ok_of_valid_point (ms : MultiSeries) (uo : UserOptions)
    (h : allValidPoints uo.x_as_log uo.y_as_log ms ≠ []) :
    ∃ o, validate_and_transform_options ms uo = .ok o := by
  have hx : (allValidPoints uo.x_as_log uo.y_as_log ms).map Prod.fst ≠ [] := by
    simpa using h
  have hy : (allValidPoints uo.x_as_log uo.y_as_log ms).map Prod.snd ≠ [] := by
    simpa using h
  obtain ⟨xb, hxb⟩ := derive_ok_of_ne_nil uo.x_as_log uo.x_min uo.x_max _ hx
  obtain ⟨yb, hyb⟩ := derive_ok_of_ne_nil uo.y_as_log uo.y_min uo.y_max _ hy
  exact ⟨⟨uo.width, uo.height, uo.interactive, uo.lines, uo.x_as_log,
    uo.y_as_log, uo.title, uo.legend_labels, xb.1, xb.2, yb.1, yb.2,
    xb.1, xb.2, yb.1, yb.2⟩,
    by unfold validate_and_transform_options; rw [hxb, hyb]⟩

theorem generate_body_length (t : Bool → ℚ → ℚ) (ms : MultiSeries)
    (o : Options) :
    (generate_body t ms o).length
      = o.height + 3 + legend_line_count o.legend_labels := by
  simp [generate_body, pixel_rows, legend_lines, legend_line_count]
  omega

theorem generate_plot_str_list_length (t : Bool → ℚ → ℚ) (ms : MultiSeries)
    (o : Options) (wh : Bool) :
    (generate_plot_str_list t ms o wh).length
      = (if wh then 1 else 0) + (o.height + 3 + legend_line_count o.legend_labels) := by
  rw [generate_plot_str_list, List.length_append, generate_body_length]
  cases wh <;> simp [generate_header]

/-- C1: for every well-shaped series input with at least one valid point
(both coordinates present and finite, and positive where the scale is
logarithmic), the one-shot `plot_to_string` succeeds and returns exactly
`height + fixed_header_lines + fixed_footer_lines` lines plus one line per
legend label; and the interactive erase path counts `height + 4` plus one
line per legend label. -/
theorem uniplotC1_render_line_count (t : Bool → ℚ → ℚ) (ys : RawInput)
    (xs : Option RawInput) (uo : UserOptions) (ms : MultiSeries)
    (hms : mkMultiSeries xs ys = .ok ms)
    (hpt : allValidPoints uo.x_as_log uo.y_as_log ms ≠ []) :
    (∃ L, plot_to_string t ys xs uo = .ok L ∧
      L.length = uo.height + fixed_header_lines + fixed_footer_lines
        + legend_line_count uo.legend_labels) ∧
    (∀ o : Options, nr_lines_to_erase o
      = o.height + 4 + legend_line_count o.legend_labels) := by
  constructor
  · obtain ⟨o, ho⟩ := validate_ok_of_valid_point ms uo hpt
    have hfields := validate_ok_fields ms uo o ho
    refine ⟨generate_plot_str_list t ms o true, ?_, ?_⟩
    · simp only [plot_to_string, hms, ho]
    · rw [generate_plot_str_list_length, hfields.2.1, hfields.2.2.2.2.2.2.2.1,
        fixed_header_lines, fixed_footer_lines]
      simp
      omega
  · intro o
    unfold nr_lines_to_erase legend_line_count
    cases o.legend_labels <;> simp

/-- A single flat series with two finite values, for witnesses. -/
def sampleRaw : RawInput := RawInput.single [some 1, some 2]

/-- Default user options (no explicit bounds, linear scales, no legend). -/
def defaultUserOptions : UserOptions :=
  ⟨64, 17, false, false, false, false, none, none, none, none, none, none⟩

/-- Witness for C1: the concrete sample render has
`17 + 1 + 3 + 0` lines, and the erase count for the validated options is
`17 + 4 + 0`. -/
theorem uniplotC1_witness :
    (plot_to_string idTransform sampleRaw none defaultUserOptions).toOption.map
        List.length
      = some (17 + fixed_header_lines + fixed_footer_lines + 0) ∧
    nr_lines_to_erase boundedOptions = 17 + 4 + 0 := by
  have h := uniplotC1_render_line_count idTransform sampleRaw none
    defaultUserOptions ⟨(toSeriesList sampleRaw).map defaultIndices,
      toSeriesList sampleRaw⟩ rfl (by decide)
  obtain ⟨⟨L, hL, hlen⟩, herase⟩ := h
  constructor
  · rw [hL]
    show some L.length = some (17 + fixed_header_lines + fixed_footer_lines + 0)
    rw [hlen]
    rfl
  · rw [herase boundedOptions]
    rfl

/-! ## C3 -/

theorem validXY_log_eq_some_iff (x? y? : Option ℚ) (p : ℚ × ℚ) :
    validXY true true x? y? = some p ↔
      x? = some p.1 ∧ y? = some p.2 ∧ 0 < p.1 ∧ 0 < p.2 := by
  cases x? with
  | none => simp [validXY, validValue]
  | some x =>
    cases y? with
    | none => simp [validXY, validValue]
    | some y =>
      by_cases hx : x ≤ 0
      · simp only [validXY, validValue, true_and, if_pos hx]
        constructor
        · intro hv
          exact absurd hv (by simp)
        · rintro ⟨h1, -, h3, -⟩
          injection h1 with h1
          exact absurd h3 (not_lt.mpr (h1 ▸ hx))
      · by_cases hy : y ≤ 0
        · simp only [validXY, validValue, true_and, if_neg hx, if_pos hy]
          constructor
          · intro hv
            exact absurd hv (by simp)
          · rintro ⟨-, h2, -, h4⟩
            injection h2 with h2
            exact absurd h4 (not_lt.mpr (h2 ▸ hy))
        · simp only [validXY, validValue, true_and, if_neg hx, if_neg hy]
          constructor
          · intro hv
            injection hv with hv
            rw [← hv]
            exact ⟨rfl, rfl, not_le.mp hx, not_le.mp hy⟩
          · rintro ⟨h1, h2, -, -⟩
            injection h1 with h1
            injection h2 with h2
            rw [h1, h2]

theorem mem_valid_points_log (xs ys : List (Option ℚ)) (p : ℚ × ℚ) :
    p ∈ valid_points true true xs ys ↔
      (some p.1, some p.2) ∈ xs.zip ys ∧ 0 < p.1 ∧ 0 < p.2 := by
  unfold valid_points
  rw [List.mem_filterMap]
  constructor
  · rintro ⟨a, ha, hv⟩
    rw [validXY_log_eq_some_iff] at hv
    obtain ⟨h1, h2, h3, h4⟩ := hv
    refine ⟨?_, h3, h4⟩
    have haeq : a = (some p.1, some p.2) := by
      cases a
      simp only at h1 h2
      rw [h1, h2]
    rwa [haeq] at ha
  · rintro ⟨hmem, h3, h4⟩
    exact ⟨(some p.1, some p.2), hmem,
      (validXY_log_eq_some_iff _ _ p).mpr ⟨rfl, rfl, h3, h4⟩⟩

theorem mem_all_marks_iff (t : Bool → ℚ → ℚ) (ms : MultiSeries) (o : Options)
    (hlines : o.lines = false) (cell : Nat × Nat) :
    cell ∈ all_marks t ms o ↔
      ∃ s ∈ ms.xs.zip ms.ys,
        ∃ p ∈ valid_points o.x_as_log o.y_as_log s.1 s.2,
          map_point t o p = cell := by
  unfold all_marks series_marks
  simp only [hlines, if_false, Bool.false_eq_true, List.append_nil,
    List.mem_flatten, List.mem_map]
  constructor
  · rintro ⟨l, ⟨s, hs, hl⟩, hcell⟩
    rw [← hl] at hcell
    rw [List.mem_map] at hcell
    obtain ⟨p, hp, hpc⟩ := hcell
    exact ⟨s, hs, p, hp, hpc⟩
  · rintro ⟨s, hs, p, hp, hpc⟩
    exact ⟨(valid_points o.x_as_log o.y_as_log s.1 s.2).map (map_point t o),
      ⟨s, hs, rfl⟩, List.mem_map.mpr ⟨p, hp, hpc⟩⟩

/-- C3: with both axes logarithmic, any mix of invalid values (negative,
zero, missing/NaN) with at least one valid value renders without error
(validation and the full render succeed), and the rendered grid marks a
cell exactly when some series' own valid points map to it: a point is
plotted iff both its coordinates are present in that series and strictly
positive, so each invalid value is dropped from its own series only and
never propagates to other series. -/
theorem uniplotC3_log_invalid_values_filtered (t : Bool → ℚ → ℚ)
    (ms : MultiSeries) (uo : UserOptions)
    (hx : uo.x_as_log = true) (hy : uo.y_as_log = true) (hl : uo.lines = false)
    (hpt : allValidPoints uo.x_as_log uo.y_as_log ms ≠ []) :
    ∃ o, validate_and_transform_options ms uo = .ok o ∧
      (∀ cell : Nat × Nat, cell ∈ all_marks t ms o ↔
        ∃ s ∈ ms.xs.zip ms.ys,
          ∃ p ∈ valid_points true true s.1 s.2, map_point t o p = cell) ∧
      (∀ (xs' ys' : List (Option ℚ)) (p : ℚ × ℚ),
        p ∈ valid_points true true xs' ys' ↔
          (some p.1, some p.2) ∈ xs'.zip ys' ∧ 0 < p.1 ∧ 0 < p.2) := by
  obtain ⟨o, ho⟩ := validate_ok_of_valid_point ms uo hpt
  have hfields := validate_ok_fields ms uo o ho
  have hox : o.x_as_log = true := hfields.2.2.2.2.1.trans hx
  have hoy : o.y_as_log = true := hfields.2.2.2.2.2.1.trans hy
  have hol : o.lines = false := hfields.2.2.2.1.trans hl
  refine ⟨o, ho, ?_, fun xs' ys' p => mem_valid_points_log xs' ys' p⟩
  intro cell
  have hiff := mem_all_marks_iff t ms o hol cell
  rw [hox, hoy] at hiff
  exact hiff

/-- The invalid-values acceptance-test input: `[-1.0, 0.0, 1.0, NaN,
20.09, None, 12.2]`. -/
def logTestValues : List (Option ℚ) :=
  [some (-1), some 0, some 1, none, some (2009 / 100), none, some (61 / 5)]

/-- The test input plotted against itself (`plot(xs=ys, ys=ys)`). -/
def logMS : MultiSeries := ⟨[logTestValues], [logTestValues]⟩

/-- Log-log user options for the invalid-values test. -/
def logUserOptions : UserOptions :=
  ⟨64, 17, false, false, true, true, none, none, none, none, none, none⟩

/-- Witness for C3: on the acceptance-test input, validation succeeds, the
valid point (1,1) is kept and the invalid point (-1,-1) is dropped. -/
theorem uniplotC3_witness :
    Except.isOk (validate_and_transform_options logMS logUserOptions) = true ∧
    ((1 : ℚ), (1 : ℚ)) ∈ valid_points true true logTestValues logTestValues ∧
    ¬(((-1 : ℚ), (-1 : ℚ)) ∈ valid_points true true logTestValues logTestValues) := by
  obtain ⟨o, ho, hmk, hvp⟩ := uniplotC3_log_invalid_values_filtered idTransform
    logMS logUserOptions rfl rfl rfl (by decide)
  refine ⟨by rw [ho]; rfl, ?_, ?_⟩
  · exact (hvp logTestValues logTestValues (1, 1)).mpr ⟨by decide, by decide, by decide⟩
  · intro hmem
    have hcontra := (hvp logTestValues logTestValues (-1, -1)).mp hmem
    exact absurd hcontra.2.1 (by decide)

/-! ## C6 -/

theorem validate_interactive (ms : MultiSeries) (uo : UserOptions) (b : Bool) :
    validate_and_transform_options ms { uo with interactive := b }
      = (validate_and_transform_options ms uo).map
          (fun o => { o with interactive := b }) := by
  cases uo with
  | mk w h i ln xl yl ti ll xm xM ym yM =>
    unfold validate_and_transform_options
    dsimp only
    cases hx : derive_axis_bounds xl xm xM
        ((allValidPoints xl yl ms).map Prod.fst) with
    | error e => rfl
    | ok xb =>
      cases hy : derive_axis_bounds yl ym yM
          ((allValidPoints xl yl ms).map Prod.snd) with
      | error e => rfl
      | ok yb => rfl

/-- C6: `plot_to_string` is a pure, deterministic function of the series
input and the options — it ignores the `interactive` option (flipping it
does not change the result), equal inputs give equal outputs, and the
lines it returns are exactly the ones the printing path (`plot`) emits as
its first render event, so the string-producing API is usable without any
output sink. -/
theorem uniplotC6_plot_to_string_pure (t : Bool → ℚ → ℚ) (ys : RawInput)
    (xs : Option RawInput) (uo : UserOptions) :
    (∀ b : Bool, plot_to_string t ys xs { uo with interactive := b }
      = plot_to_string t ys xs uo) ∧
    (∀ (ys₂ : RawInput) (xs₂ : Option RawInput) (uo₂ : UserOptions),
      ys = ys₂ → xs = xs₂ → uo = uo₂ →
      plot_to_string t ys xs uo = plot_to_string t ys₂ xs₂ uo₂) ∧
    (∀ (ms : MultiSeries) (o : Options) (keys : List Char),
      mkMultiSeries xs ys = .ok ms →
      validate_and_transform_options ms uo = .ok o →
      plot_to_string t ys xs uo = .ok (generate_plot_str_list t ms o true) ∧
      plot_trace t ys xs uo keys
        = .ok (Event.renderEvent true (generate_plot_str_list t ms o true)
            :: (if o.interactive then interactive_loop t ms o keys else []))) := by
  refine ⟨?_, ?_, ?_⟩
  · intro b
    unfold plot_to_string
    cases hms : mkMultiSeries xs ys with
    | error e => rfl
    | ok ms =>
      dsimp only
      rw [validate_interactive]
      cases hv : validate_and_transform_options ms uo with
      | error e => rfl
      | ok o => rfl
  · intro ys₂ xs₂ uo₂ h1 h2 h3
    rw [h1, h2, h3]
  · intro ms o keys hms ho
    constructor
    · simp only [plot_to_string, hms, ho]
    · simp only [plot_trace, hms, ho]

/-- The canonical series the sample input produces. -/
def msW : MultiSeries :=
  ⟨(toSeriesList sampleRaw).map defaultIndices, toSeriesList sampleRaw⟩

/-- The options validation derives for the sample input under
`defaultUserOptions` (x bounds from the default indices, y bounds from the
values). -/
def oW : Options :=
  ⟨64, 17, false, false, false, false, none, none, 0, 1, 1, 2, 0, 1, 1, 2⟩

/-- Witness for C6 at the sample input: flipping `interactive` leaves the
output unchanged, and the pure lines coincide with the first render event
of the printing path. -/
theorem uniplotC6_witness :
    plot_to_string idTransform sampleRaw none
        { defaultUserOptions with interactive := true }
      = plot_to_string idTransform sampleRaw none defaultUserOptions ∧
    plot_to_string idTransform sampleRaw none defaultUserOptions
      = .ok (generate_plot_str_list idTransform msW oW true) ∧
    plot_trace idTransform sampleRaw none defaultUserOptions []
      = .ok (Event.renderEvent true (generate_plot_str_list idTransform msW oW true)
          :: (if oW.interactive then interactive_loop idTransform msW oW [] else [])) := by
  have h := uniplotC6_plot_to_string_pure idTransform sampleRaw none defaultUserOptions
  have h3 := h.2.2 msW oW [] rfl rfl
  exact ⟨h.1 true, h3.1, h3.2⟩

end Uniplot
